import Mathlib

/-!
# Verification of the `regi` register-description crates

Shallow embedding of the `regi` runtime crate (`src/field.rs`, `src/perms.rs`,
`src/lib.rs`) and of the proc-macro front end (`impl/src/ast.rs`), together
with theorems about range resolution, permission parsing and combination,
field read/modify arithmetic, and address realization.

Machine integers (`u8`..`u64`, `usize`) are embedded as `Nat`; where the
width matters (bitwise complement), the width is passed explicitly and the
complement is taken inside `w` bits.  A `usize` subtraction that can
underflow is modelled by an explicit outcome constructor, since in Rust it
is a panic (debug) or a wrap (release), never an ordinary value of the
surrounding computation.
-/

namespace Regi

/-! ## Permissions (`src/perms.rs`)

The permission markers form a sealed, closed set: `ReadOnly`, `WriteOnly`,
`ReadWrite` are the only types implementing the `Permission` trait. -/

/-- The closed set of permission marker types from `src/perms.rs`. -/
inductive PermMarker
| ReadOnly
| WriteOnly
| ReadWrite
deriving DecidableEq

/-- `Readable` trait membership: `impl Readable for ReadOnly` and
`impl Readable for ReadWrite`. -/
def Readable : PermMarker → Bool
| .ReadOnly => true
| .WriteOnly => false
| .ReadWrite => true

/-- `Writable` trait membership: `impl Writable for WriteOnly` and
`impl Writable for ReadWrite`. -/
def Writable : PermMarker → Bool
| .ReadOnly => false
| .WriteOnly => true
| .ReadWrite => true

/-- The `PermissionUnion<P1, P2>` trait resolution from `src/perms.rs`,
lines 50-60, as a partial function on pairs of permissions.  The three
impl blocks are, in order: `PermissionUnion<ReadOnly, R: Readable>` with
`Union = ReadOnly`; `PermissionUnion<WriteOnly, W: Writable>` with
`Union = WriteOnly`; `PermissionUnion<ReadWrite, P: Permission>` with
`Union = P`.  No other instance exists, which `none` records. -/
def permissionUnion : PermMarker → PermMarker → Option PermMarker
| .ReadOnly, p2 => if Readable p2 then some .ReadOnly else none
| .WriteOnly, p2 => if Writable p2 then some .WriteOnly else none
| .ReadWrite, p2 => some p2

/-! ## AST permissions (`impl/src/ast.rs`) -/

/-- The permission levels of the surface syntax, `impl/src/ast.rs`
lines 130-134. -/
inductive AstPermission
| Read
| Write
| ReadWrite
deriving DecidableEq

/-- `impl Parse for Permission` (`impl/src/ast.rs`, lines 274-288): the
parsed identifier is matched exactly against `"r"`, `"w"`, `"rw"`; any
other identifier produces the fixed error message. -/
def parsePermission (s : String) : Except String AstPermission :=
  if s = "r" then .ok .Read
  else if s = "w" then .ok .Write
  else if s = "rw" then .ok .ReadWrite
  else .error "unrecognized permissions - r/w/rw are supported values"

/-! ## Bit ranges (`impl/src/ast.rs`) -/

/-- `syn::RangeLimits`: `..` versus `..=`. -/
inductive RangeLimits
| halfOpen
| closed
deriving DecidableEq

/-- A `syn::ExprRange` after integer extraction: optional lower and upper
bound literals plus the limit style.  `extract_int_from_range` errors on a
non-literal bound; the embedding considers only integer-literal bounds,
where extraction returns `Ok (Some n)` or `Ok None`. -/
structure ExprRange where
  lo : Option Nat
  hi : Option Nat
  limits : RangeLimits
deriving DecidableEq

/-- `RegisterRange` (`impl/src/ast.rs`, lines 64-67): a single literal or
a range expression. -/
inductive RegisterRange
| lit (n : Nat)
| range (r : ExprRange)
deriving DecidableEq

/-- Outcome of `RegisterRange::end`.  `err` is the `syn::Error` return;
`underflow` marks the `usize` subtraction `i - start` with `i < start`,
which in Rust panics in debug builds and wraps in release builds, so it is
kept apart from ordinary results; `ok` carries the computed width,
`none` meaning the range extends to the top of the register. -/
inductive EndOutcome
| err
| underflow
| ok (width : Option Nat)
deriving DecidableEq

/-- `RegisterRange::start` (`impl/src/ast.rs`, lines 84-91): a literal is
its own start; a range starts at its lower bound, defaulting to 0. -/
def RegisterRange.start : RegisterRange → Nat
| .lit n => n
| .range r => r.lo.getD 0

/-- `RegisterRange::end` (`impl/src/ast.rs`, lines 101-126), which despite
its name returns the bit width.  A literal yields `Ok(Some(1))`.  For a
range, when an upper bound `e` is present the code first runs the guard
`if start < e { return Err(..) }`, then adds 1 to `e` when the limits are
inclusive and subtracts `start` — a `usize` subtraction that underflows
whenever the adjusted end is below `start`. -/
def RegisterRange.resolveEnd : RegisterRange → EndOutcome
| .lit _ => .ok (some 1)
| .range r =>
    let s := r.lo.getD 0
    match r.hi with
    | none => .ok none
    | some e =>
        if s < e then .err
        else
          let i := e + (match r.limits with | .closed => 1 | .halfOpen => 0)
          if i < s then .underflow
          else .ok (some (i - s))

/-! ## Claim theorems: ranges and permissions -/

/-- C1: the spec claims `"3..5"` resolves to start 3, width 2 and
`"3..=5"` to start 3, width 3.  In the code the guard in
`RegisterRange::end` is inverted — it errors whenever `start < end` — so
both ranges are rejected with the semantic error instead of resolving.
The theorem evaluates the embedded code at the claim's own inputs. -/
theorem c1_valid_ranges_rejected :
    RegisterRange.start (.range ⟨some 3, some 5, .halfOpen⟩) = 3 ∧
    RegisterRange.resolveEnd (.range ⟨some 3, some 5, .halfOpen⟩) = .err ∧
    RegisterRange.start (.range ⟨some 3, some 5, .closed⟩) = 3 ∧
    RegisterRange.resolveEnd (.range ⟨some 3, some 5, .closed⟩) = .err := by
  refine ⟨rfl, rfl, rfl, rfl⟩

/-- C2: the spec claims `"5..2"` is rejected with a semantic error.  In
the code the inverted guard `start < end` does not fire for `5..2`
(5 < 2 is false), and execution reaches the `usize` width computation
`2 - 5`, which underflows — a panic in debug builds, a wrapped huge width
in release builds — rather than returning the semantic error. -/
theorem c2_reversed_range_not_semantic_error :
    RegisterRange.resolveEnd (.range ⟨some 5, some 2, .halfOpen⟩) = .underflow ∧
    RegisterRange.resolveEnd (.range ⟨some 5, some 2, .halfOpen⟩) ≠ .err := by
  refine ⟨rfl, by decide⟩

/-- C6: `PermissionUnion` as a partial function on the closed permission
set: `ReadWrite` combined with any `P` yields `P`; `ReadOnly` with
`ReadOnly` yields `ReadOnly`; `WriteOnly` with `WriteOnly` yields
`WriteOnly`; `ReadOnly` with `WriteOnly` has no instance in either order
and is rejected. -/
theorem c6_permission_union_partial_function :
    (∀ p, permissionUnion .ReadWrite p = some p) ∧
    permissionUnion .ReadOnly .ReadOnly = some .ReadOnly ∧
    permissionUnion .WriteOnly .WriteOnly = some .WriteOnly ∧
    permissionUnion .ReadOnly .WriteOnly = none ∧
    permissionUnion .WriteOnly .ReadOnly = none := by
  refine ⟨fun p => rfl, rfl, rfl, rfl, rfl⟩

/-- C7: permission parsing succeeds exactly on the identifiers `r`, `w`
and `rw`, mapping them to `Read`, `Write` and `ReadWrite`; every other
identifier fails with the error message that names the accepted set
`r/w/rw`. -/
theorem c7_parse_permission_exact_match :
    parsePermission "r" = .ok .Read ∧
    parsePermission "w" = .ok .Write ∧
    parsePermission "rw" = .ok .ReadWrite ∧
    ∀ s : String, s ≠ "r" → s ≠ "w" → s ≠ "rw" →
      parsePermission s =
        .error "unrecognized permissions - r/w/rw are supported values" := by
  refine ⟨rfl, rfl, rfl, fun s h1 h2 h3 => ?_⟩
  simp [parsePermission, h1, h2, h3]

/-- C7 witness: the unknown identifier `"x"` fails with the message naming
the accepted set. -/
theorem c7_witness :
    parsePermission "x" =
      .error "unrecognized permissions - r/w/rw are supported values" :=
  c7_parse_permission_exact_match.2.2.2 "x" (by decide) (by decide) (by decide)

/-! ## Fields and field values (`src/field.rs`)

`Field<I, P, R>` stores a mask and a shift; the permission parameter `P`
and register marker `R` are phantom types with no runtime content and are
not part of the value embedding.  The integer type `I` is embedded as
`Nat`; the bitwise complement `!m` of Rust is width-dependent, so the
operations that use it take the bit width `w` explicitly. -/

/-- Rust `!m` at an unsigned type of `w` bits: complement inside the low
`w` bits. -/
def wnot (w m : Nat) : Nat := (2 ^ w - 1) ^^^ m

/-- The runtime data of `Field<I, P, R>` (`src/field.rs`, lines 32-39). -/
structure Field where
  mask : Nat
  shift : Nat
deriving DecidableEq

/-- The runtime data of `FieldValue<I, R>` (`src/field.rs`, lines 45-51). -/
structure FieldValue where
  mask : Nat
  value : Nat
deriving DecidableEq

/-- `Field::read` (`src/field.rs`, lines 69-71 with `select`, lines 79-81):
`self.select(value) >> self.shift` where `select` is
`value & (self.mask << self.shift)`. -/
def Field.read (f : Field) (value : Nat) : Nat :=
  (value &&& (f.mask <<< f.shift)) >>> f.shift

/-- `Field::const_read` (`src/field.rs`, lines 118-120):
`(value & (self.mask << self.shift)) >> self.shift`. -/
def Field.const_read (f : Field) (value : Nat) : Nat :=
  (value &&& (f.mask <<< f.shift)) >>> f.shift

/-- `FieldValue::new` (`src/field.rs`, lines 151-158): stores the mask as
given and the value masked by it. -/
def FieldValue.new (mask value : Nat) : FieldValue :=
  ⟨mask, value &&& mask⟩

/-- `Field::make_value` (`src/field.rs`, lines 141-146): builds a
`FieldValue` whose mask is the positioned mask `self.mask << self.shift`. -/
def Field.make_value (f : Field) (value : Nat) : FieldValue :=
  FieldValue.new (f.mask <<< f.shift) value

/-- `FieldValue::modify` (`src/field.rs`, lines 104-106), verbatim:
`(new & !self.mask) | self.mask`.  Note the second operand is the mask,
not the stored value. -/
def FieldValue.modify (w : Nat) (f : FieldValue) (new : Nat) : Nat :=
  (new &&& wnot w f.mask) ||| f.mask

/-- `FieldValue::const_modify` (`src/field.rs`, lines 166-168):
`(new & !self.mask) | self.value`. -/
def FieldValue.const_modify (w : Nat) (f : FieldValue) (new : Nat) : Nat :=
  (new &&& wnot w f.mask) ||| f.value

/-- `impl BitOr for FieldValue` (`src/field.rs`, lines 180-192): joins the
masks and the values.  `impl BitOrAssign` (lines 195-201) assigns the same
two components and is covered by the same embedding. -/
def FieldValue.bitor (a b : FieldValue) : FieldValue :=
  ⟨a.mask ||| b.mask, a.value ||| b.value⟩

/-- The implicit representation invariant of `FieldValue`: the stored
value has no bits outside the stored mask. -/
def FieldValue.Invariant (f : FieldValue) : Prop :=
  f.value &&& f.mask = f.value

/-! ## Bitwise helper lemmas -/

/-- Masking with a shifted mask and then shifting down extracts the field
bits: `(v &&& (m <<< s)) >>> s = (v >>> s) &&& m`. -/
theorem land_shiftLeft_shiftRight (m s v : Nat) :
    (v &&& (m <<< s)) >>> s = (v >>> s) &&& m := by
  apply Nat.eq_of_testBit_eq
  intro i
  simp only [Nat.testBit_shiftRight, Nat.testBit_and, Nat.testBit_shiftLeft,
    ge_iff_le, Nat.le_add_right, decide_True, Bool.true_and,
    Nat.add_sub_cancel_left]

/-- Re-masking a value that was already combined by or: the pattern shared
by the idempotence of `modify` and `const_modify`. -/
theorem land_lor_restrict (c m x : Nat) :
    (((x &&& c) ||| m) &&& c) ||| m = (x &&& c) ||| m := by
  apply Nat.eq_of_testBit_eq
  intro i
  simp only [Nat.testBit_or, Nat.testBit_and]
  cases x.testBit i <;> cases c.testBit i <;> cases m.testBit i <;> rfl

/-- Masking twice with the same mask is the same as masking once. -/
theorem land_land_self (v m : Nat) : (v &&& m) &&& m = v &&& m := by
  apply Nat.eq_of_testBit_eq
  intro i
  simp only [Nat.testBit_and]
  cases v.testBit i <;> cases m.testBit i <;> rfl

/-- Joining two values each inside its own mask stays inside the joined
mask. -/
theorem lor_land_lor_of_masked (m1 v1 m2 v2 : Nat)
    (h1 : v1 &&& m1 = v1) (h2 : v2 &&& m2 = v2) :
    (v1 ||| v2) &&& (m1 ||| m2) = v1 ||| v2 := by
  apply Nat.eq_of_testBit_eq
  intro i
  have t1 := congrArg (fun n => n.testBit i) h1
  have t2 := congrArg (fun n => n.testBit i) h2
  simp only [Nat.testBit_and, Nat.testBit_or] at t1 t2 ⊢
  cases hv1 : v1.testBit i <;> cases hv2 : v2.testBit i <;>
    cases hm1 : m1.testBit i <;> cases hm2 : m2.testBit i <;>
    simp_all

/-! ## Claim theorems: fields -/

/-- C3 counterexample: constructing the runtime `Field` directly with the
positioned per-field data mask `((1 <<< width) - 1) <<< start` and
`shift = start` does not make `Field::read` return the field bits
`(v >>> start) &&& ((1 <<< width) - 1)`: `read` shifts the stored mask by
`shift` again internally.  Concretely, width 1, start 1, v = 2. -/
theorem c3_counterexample :
    ¬ (Field.read ⟨(2 ^ 1 - 1) <<< 1, 1⟩ 2 = (2 >>> 1) &&& (2 ^ 1 - 1)) := by
  decide

/-- C3 amended: the runtime `Field` stores the pre-shift mask
`(1 <<< width) - 1` together with `shift = start`; the positioned
per-field data mask `((1 <<< width) - 1) <<< start` arises internally as
`mask <<< shift`.  With that construction, `Field::read` and
`Field::const_read` return exactly the field bits
`(v >>> start) &&& ((1 <<< width) - 1)` for every register value `v`. -/
theorem c3_read_extracts_field_bits (width start v : Nat) :
    Field.read ⟨2 ^ width - 1, start⟩ v = (v >>> start) &&& (2 ^ width - 1) ∧
    Field.const_read ⟨2 ^ width - 1, start⟩ v = (v >>> start) &&& (2 ^ width - 1) := by
  exact ⟨land_shiftLeft_shiftRight _ _ _, land_shiftLeft_shiftRight _ _ _⟩

/-- C4: at width 8, for the field mask `m = 1`, write value `v = 0` and
prior content `x = 0`, the claimed result `(x &&& !m) ||| (v &&& m)` is 0;
`const_modify` returns 0 as claimed, but `modify` returns 1 because its
body ors in the mask itself instead of the stored value. -/
theorem c4_modify_ors_mask_not_value :
    FieldValue.const_modify 8 (FieldValue.new 1 0) 0 = (0 &&& wnot 8 1) ||| (0 &&& 1) ∧
    FieldValue.modify 8 (FieldValue.new 1 0) 0 = 1 ∧
    (0 &&& wnot 8 1) ||| (0 &&& 1) = 0 := by
  decide

/-- C5: applying the same field write twice in succession yields the same
result as applying it once, both for `modify` and for `const_modify`, at
every width `w`, every `FieldValue` and every prior register content. -/
theorem c5_modify_idempotent (w : Nat) (f : FieldValue) (x : Nat) :
    FieldValue.modify w f (FieldValue.modify w f x) = FieldValue.modify w f x ∧
    FieldValue.const_modify w f (FieldValue.const_modify w f x) =
      FieldValue.const_modify w f x := by
  exact ⟨land_lor_restrict _ _ _, land_lor_restrict _ _ _⟩

/-- C10: every `FieldValue` produced by the constructor or by
`make_value` satisfies `value &&& mask = value`, and combining two
`FieldValue`s with `|` (and `|=`, which assigns the same components)
preserves that invariant. -/
theorem c10_fieldvalue_invariant :
    (∀ m v, (FieldValue.new m v).Invariant) ∧
    (∀ f : Field, ∀ v, (f.make_value v).Invariant) ∧
    (∀ a b : FieldValue, a.Invariant → b.Invariant → (a.bitor b).Invariant) := by
  refine ⟨fun m v => land_land_self v m, fun f v => land_land_self v _,
    fun a b ha hb => ?_⟩
  exact lor_land_lor_of_masked a.mask a.value b.mask b.value ha hb

/-- C10 witness: the invariant at concrete inputs, with the combination
hypotheses discharged by the constructor clauses at those inputs. -/
theorem c10_witness :
    ((FieldValue.new 3 1).bitor (FieldValue.new 12 4)).Invariant :=
  c10_fieldvalue_invariant.2.2 (FieldValue.new 3 1) (FieldValue.new 12 4)
    (by rfl) (by rfl)

/-! ## Address realization (`src/lib.rs`) -/

/-- `is_aligned` (`src/lib.rs`, lines 20-23): `value & (align - 1) == 0`,
with a debug assertion that `align` is a power of two. -/
def is_aligned (value align : Nat) : Bool :=
  value &&& (align - 1) == 0

/-- `register_block_ptr` (`src/lib.rs`, lines 29-37): asserts that the
address is non-zero and aligned to the storage size of `I`, then returns
the address as the block pointer.  A failed assertion aborts the process,
modelled as `none`. -/
def register_block_ptr (size addr : Nat) : Option Nat :=
  if addr = 0 then none
  else if is_aligned addr size then some addr else none

/-- For a power-of-two alignment, the bit test of `is_aligned` coincides
with divisibility. -/
theorem is_aligned_pow2 (k addr : Nat) :
    is_aligned addr (2 ^ k) = true ↔ 2 ^ k ∣ addr := by
  simp [is_aligned, Nat.and_pow_two_sub_one_eq_mod, Nat.dvd_iff_mod_eq_zero]

/-- C8: for each storage size of the supported register types
(`u8`/`u16`/`u32`/`u64`, sizes 1, 2, 4, 8), `register_block_ptr` aborts
exactly when the address is zero or not a multiple of the storage size,
and for every non-zero, suitably aligned address it succeeds and returns
that address. -/
theorem c8_register_block_ptr_aborts_iff (size addr : Nat)
    (h : size = 1 ∨ size = 2 ∨ size = 4 ∨ size = 8) :
    (register_block_ptr size addr = none ↔ addr = 0 ∨ ¬ size ∣ addr) ∧
    (addr ≠ 0 → size ∣ addr → register_block_ptr size addr = some addr) := by
  have hpow : ∃ k, size = 2 ^ k := by
    rcases h with h | h | h | h
    · exact ⟨0, by simp [h]⟩
    · exact ⟨1, by simp [h]⟩
    · exact ⟨2, by norm_num [h]⟩
    · exact ⟨3, by norm_num [h]⟩
  obtain ⟨k, rfl⟩ := hpow
  constructor
  · constructor
    · intro hnone
      by_cases hz : addr = 0
      · exact Or.inl hz
      · refine Or.inr fun hdvd => ?_
        have ha : is_aligned addr (2 ^ k) = true := (is_aligned_pow2 k addr).mpr hdvd
        simp [register_block_ptr, hz, ha] at hnone
    · rintro (hz | hnd)
      · simp [register_block_ptr, hz]
      · by_cases hz : addr = 0
        · simp [register_block_ptr, hz]
        · have ha : ¬ is_aligned addr (2 ^ k) = true := fun hc =>
            hnd ((is_aligned_pow2 k addr).mp hc)
          simp [register_block_ptr, hz, ha]
  · intro hz hdvd
    have ha : is_aligned addr (2 ^ k) = true := (is_aligned_pow2 k addr).mpr hdvd
    simp [register_block_ptr, hz, ha]

/-- C8 witness: a `u32` register block (size 4) at the non-zero aligned
address 8 realizes to the pointer 8. -/
theorem c8_witness : register_block_ptr 4 8 = some 8 :=
  (c8_register_block_ptr_aborts_iff 4 8 (by decide)).2 (by decide) (by decide)

end Regi
